import Mathlib

/-!
Shallow embedding of `rhasspywake_snowboy_hermes/__init__.py` (the Hermes
MQTT wake-word service built on snowboy), for verifying its specification.

Python `bytes` values are lists of byte values; the stateful
`WakeHermesMqtt` object is split into an immutable `Config` (constructor
arguments plus the loaded detectors) and a mutable `MqttState`
(`enabled`, `first_audio`, `audio_buffer`).  External capabilities — each
snowboy detector's `RunDetection` and the sox subprocess of
`_convert_wav` — are opaque functions carried in the `Config`.
-/

namespace RhasspyWakeSnowboy

/-- Raw audio bytes (a Python `bytes` value), as a list of byte values. -/
abbrev Bytes := List Nat

/-- Splitting a character list on a separator character, keeping empty
groups (the behaviour of Python `str.split(sep)` for a one-character
separator). -/
def splitOnChar (sep : Char) : List Char → List (List Char)
  | [] => [[]]
  | c :: cs =>
      match splitOnChar sep cs with
      | [] => if c = sep then [[], []] else [[c]]
      | g :: gs => if c = sep then [] :: g :: gs else (c :: g) :: gs

/-- Joining character-list groups with `'.'` separators. -/
def joinDot : List (List Char) → List Char
  | [] => []
  | [g] => g
  | g :: gs => g ++ '.' :: joinDot gs

/-- The final component of a POSIX path (`pathlib.PurePath.name`). -/
def pathName (p : String) : List Char := (splitOnChar '/' p.toList).getLastD []

/-- Python `pathlib.PurePath.stem`: the final path component without its last
suffix (a lone leading dot, as in `".hidden"`, is not a suffix). -/
def pathStem (p : String) : String :=
  let name := pathName p
  let parts := splitOnChar '.' name
  match parts with
  | [] => String.mk name
  | [_] => String.mk name
  | first :: rest =>
      if first.isEmpty && rest.length == 1 then String.mk name
      else String.mk (joinDot parts.dropLast)

/-- Settings for a single snowboy model (`SnowboyModel`, lines 25-32). -/
structure SnowboyModel where
  model_path : String
  sensitivity : String := "0.5"
  audio_gain : Float := 1.0
  apply_frontend : Bool := false

/-- The runtime value of the `model_ids` attribute.  It is initialised to
the empty Python list (line 85), but the loop of `load_detectors`
(line 101) ASSIGNS — rather than appends — the stem string of each model
path, so after loading one or more models the attribute holds a string. -/
inductive ModelIds where
  | pylist (ids : List String)
  | pystr (s : String)
deriving DecidableEq

/-- Python `len()` on the `model_ids` value (list length or string
length). -/
def ModelIds.len : ModelIds → Nat
  | .pylist l => l.length
  | .pystr s => s.length

/-- Python indexing `model_ids[i]`; indexing a Python string yields a
one-character string.  Only used under the `len` bounds check. -/
def ModelIds.idx : ModelIds → Nat → String
  | .pylist l, i => l.getD i ""
  | .pystr s, i => String.mk [s.toList.getD i ' ']

/-- The `model_ids` value produced by `load_detectors` (lines 85-101):
starts as the empty list and is reassigned to `model.model_path.stem` for
each model in turn, ending as the stem of the LAST model's path. -/
def load_model_ids (models : List SnowboyModel) : ModelIds :=
  models.foldl (fun _ m => ModelIds.pystr (pathStem m.model_path)) (ModelIds.pylist [])

/-- The `rhasspyhermes` `HotwordDetected` message, with the fields set by
`handle_detection` (lines 154-160). -/
structure HotwordDetected where
  siteId : String
  modelId : String
  currentSensitivity : String
  modelVersion : String
  modelType : String
deriving DecidableEq

/-- The `rhasspyhermes` `HotwordError` message, with the fields set by
`handle_detection` (line 163). -/
structure HotwordError where
  error : String
  context : String
  siteId : String
deriving DecidableEq

/-- The return type of `handle_detection`:
`typing.Union[HotwordDetected, HotwordError]`. -/
abbrev WakeResult := Sum HotwordDetected HotwordError

/-- Method `handle_detection` (lines 147-163).  The `try`/`except Exception` is
modelled by the two failure branches the body can raise: the `assert` on
`len(self.model_ids)` (line 152, message `f"Missing {model_index} in
models"`) and the `self.models[model_index]` list lookup (message
`"list index out of range"`); a caught exception `e` becomes
`HotwordError(error=str(e), context=str(model_index), siteId=siteId)`. -/
def handle_detection (models : List SnowboyModel) (model_ids : ModelIds)
    (model_index : Nat) (siteId : String) : WakeResult :=
  if model_ids.len > model_index then
    match models.get? model_index with
    | some m =>
        Sum.inl { siteId := siteId, modelId := model_ids.idx model_index,
                  currentSensitivity := m.sensitivity, modelVersion := "",
                  modelType := "personal" }
    | none =>
        Sum.inr { error := "list index out of range",
                  context := toString model_index, siteId := siteId }
  else
    Sum.inr { error := "Missing " ++ toString model_index ++ " in models",
              context := toString model_index, siteId := siteId }

/-- The `wakewordId` resolution for a detection at `detector_index`
(lines 136-139): positional lookup in `wakeword_ids`, falling back to
`"default"` when the list is too short. -/
def resolve_wakeword_id (wakeword_ids : List String) (detector_index : Nat) : String :=
  if detector_index < wakeword_ids.length then wakeword_ids.getD detector_index "default"
  else "default"

/-- A parsed WAV blob as the `wave` module exposes it to
`maybe_convert_wav`: the three header fields it inspects and the raw
sample payload (`readframes(getnframes())`). -/
structure Wav where
  framerate : Nat
  sampwidth : Nat
  nchannels : Nat
  frames : Bytes
deriving DecidableEq

/-- The configuration of `WakeHermesMqtt` (constructor, lines 41-77) plus
its loaded detector state.  Each detector's `RunDetection` is an external
black box returning an int (−2 silence, −1 error, 0 voice, n ≥ 1 a
match); it is modelled as a function of the chunk.  `convert_wav` models
the external sox invocation of `_convert_wav` (lines 251-274). -/
structure Config where
  models : List SnowboyModel
  wakeword_ids : List String
  siteIds : List String := []
  sample_rate : Nat := 16000
  sample_width : Nat := 2
  channels : Nat := 1
  chunk_size : Nat := 960
  detectors : List (Bytes → Int)
  model_ids : ModelIds
  convert_wav : Wav → Bytes

/-- The mutable state of `WakeHermesMqtt` that the message handlers
update. -/
structure MqttState where
  enabled : Bool := true
  first_audio : Bool := true
  audio_buffer : Bytes := []
deriving DecidableEq

/-- Method `maybe_convert_wav` (lines 276-289): if any of the three header
fields differs from the required format, return the external converter's
output; otherwise return the raw sample payload.  The `Bool` records
whether the external converter was invoked. -/
def maybe_convert_wav (cfg : Config) (w : Wav) : Bytes × Bool :=
  if w.framerate ≠ cfg.sample_rate ∨ w.sampwidth ≠ cfg.sample_width ∨
      w.nchannels ≠ cfg.channels then
    (cfg.convert_wav w, true)
  else
    (w.frames, false)

/-- The iterations of the chunk-draining loop of `handle_audio_frame`
(lines 122-124), with explicit fuel: while the buffer holds at least `c`
bytes, remove a `c`-byte chunk from the front.  Returns the drained
chunks in order together with the remainder.  When `c ≥ 1`, every
iteration removes at least one byte, so `buf.length` units of fuel always
suffice (`drainChunksFuel_congr` below shows the result is
fuel-independent past that point). -/
def drainChunksFuel (c : Nat) : Nat → Bytes → List Bytes × Bytes
  | 0, buf => ([], buf)
  | fuel + 1, buf =>
      if 1 ≤ c ∧ c ≤ buf.length then
        let r := drainChunksFuel c fuel (buf.drop c)
        (buf.take c :: r.1, r.2)
      else
        ([], buf)

/-- The chunk-draining loop of `handle_audio_frame` (lines 122-124) for
`chunk_size ≥ 1`, run to completion.  (For `c = 0` the source loop does
not terminate; that behaviour is modelled by `iterDrain` below.) -/
def drainChunks (c : Nat) (buf : Bytes) : List Bytes × Bytes :=
  drainChunksFuel c buf.length buf

/-- The guard of the `while` loop at line 122:
`len(self.audio_buffer) >= self.chunk_size`. -/
def drainGuard (c : Nat) (buf : Bytes) : Prop := c ≤ buf.length

instance (c : Nat) (buf : Bytes) : Decidable (drainGuard c buf) :=
  inferInstanceAs (Decidable (c ≤ buf.length))

/-- The buffer after `n` iterations of the loop body (line 124 removes
the first `chunk_size` bytes each iteration). -/
def iterDrain (c : Nat) : Nat → Bytes → Bytes
  | 0, buf => buf
  | n + 1, buf => iterDrain c n (buf.drop c)

/-- The index of the first detector whose `RunDetection` result on the
chunk is positive, if any. -/
def firstMatchIdx (chunk : Bytes) : List (Bytes → Int) → Option Nat
  | [] => none
  | d :: rest =>
      if d chunk > 0 then some 0
      else (firstMatchIdx chunk rest).map (· + 1)

/-- The detector loop of `handle_audio_frame` for one chunk
(lines 126-145), running the detectors `ds` whose enumeration indices
start at `i`.  Returns the enumeration indices of the detectors whose
`RunDetection` was actually invoked, in order, and the yielded
`(wakewordId, result)` pairs: a positive result yields one pair and
`break`s out of the loop. -/
def detectFrom (cfg : Config) (siteId : String) (chunk : Bytes) :
    Nat → List (Bytes → Int) → List Nat × List (String × WakeResult)
  | _, [] => ([], [])
  | i, d :: rest =>
      if d chunk > 0 then
        ([i], [(resolve_wakeword_id cfg.wakeword_ids i,
                handle_detection cfg.models cfg.model_ids i siteId)])
      else
        let r := detectFrom cfg siteId chunk (i + 1) rest
        (i :: r.1, r.2)

/-- One chunk's full detector pass, starting at detector index 0. -/
def detectChunk (cfg : Config) (chunk : Bytes) (siteId : String) :
    List Nat × List (String × WakeResult) :=
  detectFrom cfg siteId chunk 0 cfg.detectors

/-- Method `handle_audio_frame` (lines 105-145) as a function of the buffer:
normalise the WAV payload, append it to the buffer, drain full chunks and
run each through the detector loop.  Returns the new `audio_buffer`, the
chunks fed to the detectors (in order), and the yielded
`(wakewordId, result)` pairs.  The lazy `load_detectors` call
(lines 111-112) is modelled by `cfg.detectors` / `cfg.model_ids` being
already loaded. -/
def handle_audio_frame (cfg : Config) (buf : Bytes) (wav : Wav) (siteId : String) :
    Bytes × List Bytes × List (String × WakeResult) :=
  let audio_data := (maybe_convert_wav cfg wav).1
  let d := drainChunks cfg.chunk_size (buf ++ audio_data)
  (d.2, d.1, (d.1.map (fun ch => (detectChunk cfg ch siteId).2)).flatten)

/-- An inbound MQTT message relevant to `on_message`, after topic
matching: toggle messages carry the `siteId` of their JSON payload
(`json_payload.get("siteId", "default")`); audio-frame messages carry the
`siteId` parsed from the topic and the WAV payload. -/
inductive InMsg where
  | toggleOn (siteId : String)
  | toggleOff (siteId : String)
  | audioFrame (siteId : String) (wav : Wav)

/-- Method `_check_siteId` (lines 242-247): when specific `siteIds` are
configured, require membership; otherwise accept all sites. -/
def check_siteId (cfg : Config) (siteId : String) : Bool :=
  if cfg.siteIds.isEmpty then true else cfg.siteIds.contains siteId

/-- The audio-frame topic filter of lines 210-212: either no
`audioframe_topics` are configured (no `siteIds`), or the frame's topic —
`AudioFrame.topic(siteId)`, injective in `siteId` — is among them. -/
def audioframe_topic_ok (cfg : Config) (siteId : String) : Bool :=
  cfg.siteIds.isEmpty || cfg.siteIds.contains siteId

/-- Method `on_message` (lines 185-227) as a state transition: toggle handling
(lines 192-202) first, then the enabled gate (lines 204-206), then the
audio-frame path (lines 208-225).  Returns the new state, the chunks fed
to the detectors, and the published `(wakewordId, result)` pairs. -/
def on_message (cfg : Config) (st : MqttState) (msg : InMsg) :
    MqttState × List Bytes × List (String × WakeResult) :=
  let st1 :=
    match msg with
    | .toggleOn s =>
        if check_siteId cfg s then { st with enabled := true, first_audio := true } else st
    | .toggleOff s =>
        if check_siteId cfg s then { st with enabled := false } else st
    | .audioFrame _ _ => st
  if st1.enabled = false then
    (st1, [], [])
  else
    match msg with
    | .audioFrame s w =>
        if audioframe_topic_ok cfg s then
          let r := handle_audio_frame cfg st1.audio_buffer w s
          ({ st1 with first_audio := false, audio_buffer := r.1 }, r.2.1, r.2.2)
        else (st1, [], [])
    | _ => (st1, [], [])

/-- Processing a sequence of inbound messages, threading the state and
accumulating the fed chunks and published results in order. -/
def run_messages (cfg : Config) (st : MqttState) :
    List InMsg → MqttState × List Bytes × List (String × WakeResult)
  | [] => (st, [], [])
  | m :: ms =>
      let r := on_message cfg st m
      let rest := run_messages cfg r.1 ms
      (rest.1, r.2.1 ++ rest.2.1, r.2.2 ++ rest.2.2)

/-- The normalised audio a single message contributes to the frame
buffer: an audio frame that passes the enabled gate and the topic filter
contributes its normalised payload; everything else contributes
nothing. -/
def acceptedOf (cfg : Config) (st : MqttState) : InMsg → Bytes
  | .audioFrame s w =>
      if st.enabled && audioframe_topic_ok cfg s then (maybe_convert_wav cfg w).1 else []
  | _ => []

/-- The concatenation, over a message sequence, of the normalised audio
of exactly those frames that `on_message` lets through to
`handle_audio_frame`. -/
def acceptedAudio (cfg : Config) (st : MqttState) : List InMsg → Bytes
  | [] => []
  | m :: ms => acceptedOf cfg st m ++ acceptedAudio cfg (on_message cfg st m).1 ms

/-! ### Concrete fixtures for evaluations and witnesses -/

/-- A detector whose `RunDetection` always reports voice (result 0). -/
def detNever : Bytes → Int := fun _ => 0

/-- A detector whose `RunDetection` always reports a match (result 1). -/
def detAlways : Bytes → Int := fun _ => 1

/-- One model, with path stem `"okay"`. -/
def models1 : List SnowboyModel := [{ model_path := "okay.pmdl" }]

/-- Two models, with path stems `"okay"` and `"b"`. -/
def models2 : List SnowboyModel :=
  [{ model_path := "okay.pmdl" }, { model_path := "b.umdl", sensitivity := "0.8" }]

/-- A WAV blob already in the required default format. -/
def wavW : Wav := { framerate := 16000, sampwidth := 2, nchannels := 1, frames := [1, 2, 3, 4] }

/-- A small single-detector configuration (chunk size 2, no site scope). -/
def cfgW : Config :=
  { models := models1, wakeword_ids := ["hey"], chunk_size := 2,
    detectors := [detNever], model_ids := load_model_ids models1,
    convert_wav := fun _ => [] }

/-- Two always-matching detectors (for the first-match-wins behaviour). -/
def cfg3 : Config :=
  { models := models2, wakeword_ids := [], chunk_size := 2,
    detectors := [detAlways, detAlways], model_ids := load_model_ids models2,
    convert_wav := fun _ => [] }

/-- Second detector matches, first does not; two models loaded. -/
def cfgC2 : Config :=
  { models := models2, wakeword_ids := ["first", "second"], chunk_size := 2,
    detectors := [detNever, detAlways], model_ids := load_model_ids models2,
    convert_wav := fun _ => [] }

/-- One model paired with wake word `"hey"` in the spec scenario, but an
empty configured wakeword-id list. -/
def cfg8 : Config :=
  { models := [{ model_path := "m1.umdl" }], wakeword_ids := [], chunk_size := 2,
    detectors := [detAlways], model_ids := load_model_ids [{ model_path := "m1.umdl" }],
    convert_wav := fun _ => [] }

/-- Site scope `{"kitchen", "office"}`, chunk size 1, one always-matching
detector. -/
def cfg5 : Config :=
  { models := models1, wakeword_ids := ["hey"], siteIds := ["kitchen", "office"],
    chunk_size := 1, detectors := [detAlways], model_ids := load_model_ids models1,
    convert_wav := fun _ => [] }

/-- A one-byte WAV payload in the required default format. -/
def wav1 : Wav := { framerate := 16000, sampwidth := 2, nchannels := 1, frames := [7] }

/-- A disabled state with two bytes already buffered. -/
def stDis : MqttState := { enabled := false, first_audio := true, audio_buffer := [1, 2] }

/-- A message sequence interleaving toggles and audio frames. -/
def msgsW : List InMsg :=
  [InMsg.toggleOn "kitchen", InMsg.audioFrame "office" wav1,
   InMsg.toggleOff "kitchen", InMsg.audioFrame "office" wav1,
   InMsg.toggleOn "kitchen", InMsg.audioFrame "kitchen" wav1]

/-! ### Properties of the chunk-draining loop -/

theorem drainChunksFuel_congr (c : Nat) :
    ∀ (f1 : Nat) (buf : Bytes) (f2 : Nat), buf.length ≤ f1 → buf.length ≤ f2 →
      drainChunksFuel c f1 buf = drainChunksFuel c f2 buf := by
  intro f1
  induction f1 with
  | zero =>
      intro buf f2 h1 h2
      have hb : buf.length = 0 := Nat.le_zero.mp h1
      cases f2 with
      | zero => rfl
      | succ m =>
          have hng : ¬ (1 ≤ c ∧ c ≤ buf.length) := by omega
          simp only [drainChunksFuel, if_neg hng]
  | succ m ih =>
      intro buf f2 h1 h2
      cases f2 with
      | zero =>
          have hb : buf.length = 0 := Nat.le_zero.mp h2
          have hng : ¬ (1 ≤ c ∧ c ≤ buf.length) := by omega
          simp only [drainChunksFuel, if_neg hng]
      | succ m2 =>
          by_cases hg : 1 ≤ c ∧ c ≤ buf.length
          · simp only [drainChunksFuel, if_pos hg]
            have hd : (buf.drop c).length ≤ m := by
              simp only [List.length_drop]
              omega
            have hd2 : (buf.drop c).length ≤ m2 := by
              simp only [List.length_drop]
              omega
            rw [ih (buf.drop c) m2 hd hd2]
          · simp only [drainChunksFuel, if_neg hg]

theorem drainChunks_pos (c : Nat) (buf : Bytes) (h : 1 ≤ c ∧ c ≤ buf.length) :
    drainChunks c buf =
      (buf.take c :: (drainChunks c (buf.drop c)).1, (drainChunks c (buf.drop c)).2) := by
  show drainChunksFuel c buf.length buf = _
  rw [drainChunksFuel_congr c buf.length buf (buf.length + 1) le_rfl (by omega)]
  simp only [drainChunksFuel, if_pos h]
  rw [drainChunksFuel_congr c buf.length (buf.drop c) (buf.drop c).length
    (by simp only [List.length_drop]; omega) le_rfl]
  rfl

theorem drainChunks_neg (c : Nat) (buf : Bytes) (h : ¬ (1 ≤ c ∧ c ≤ buf.length)) :
    drainChunks c buf = ([], buf) := by
  show drainChunksFuel c buf.length buf = _
  rw [drainChunksFuel_congr c buf.length buf (buf.length + 1) le_rfl (by omega)]
  simp only [drainChunksFuel, if_neg h]

theorem drainChunks_spec (c : Nat) (hc : 1 ≤ c) (buf : Bytes) :
    (drainChunks c buf).1.flatten ++ (drainChunks c buf).2 = buf ∧
    (∀ ch ∈ (drainChunks c buf).1, ch.length = c) ∧
    (drainChunks c buf).1.length = buf.length / c ∧
    (drainChunks c buf).2.length = buf.length % c := by
  suffices h : ∀ (n : Nat) (b : Bytes), b.length ≤ n →
      (drainChunks c b).1.flatten ++ (drainChunks c b).2 = b ∧
      (∀ ch ∈ (drainChunks c b).1, ch.length = c) ∧
      (drainChunks c b).1.length = b.length / c ∧
      (drainChunks c b).2.length = b.length % c by
    exact h buf.length buf le_rfl
  intro n
  induction n with
  | zero =>
      intro b hb
      have hb0 : b.length = 0 := Nat.le_zero.mp hb
      rw [drainChunks_neg c b (by omega)]
      refine ⟨by simp, by simp, by simp [hb0], by simp [hb0]⟩
  | succ n ih =>
      intro b hb
      by_cases hcb : c ≤ b.length
      · rw [drainChunks_pos c b ⟨hc, hcb⟩]
        have hdrop : (b.drop c).length ≤ n := by
          simp only [List.length_drop]
          omega
        obtain ⟨ih1, ih2, ih3, ih4⟩ := ih (b.drop c) hdrop
        refine ⟨?_, ?_, ?_, ?_⟩
        · simp only [List.flatten_cons, List.append_assoc, ih1]
          exact List.take_append_drop c b
        · intro ch hch
          rcases List.mem_cons.mp hch with h1 | h2
          · subst h1
            simp only [List.length_take]
            omega
          · exact ih2 ch h2
        · simp only [List.length_cons, ih3, List.length_drop]
          rw [Nat.div_eq_sub_div (by omega) hcb]
        · simp only [ih4, List.length_drop]
          exact (Nat.mod_eq_sub_mod hcb).symm
      · rw [drainChunks_neg c b (by omega)]
        have hlt : b.length < c := by omega
        refine ⟨by simp, by simp, ?_, ?_⟩
        · simp [Nat.div_eq_of_lt hlt]
        · simp [Nat.mod_eq_of_lt hlt]

theorem iterDrain_length (c : Nat) : ∀ (n : Nat) (buf : Bytes),
    (iterDrain c n buf).length = buf.length - n * c := by
  intro n
  induction n with
  | zero =>
      intro buf
      simp [iterDrain]
  | succ n ih =>
      intro buf
      simp only [iterDrain, ih, List.length_drop, Nat.succ_mul]
      omega

theorem iterDrain_zero_chunk (n : Nat) (buf : Bytes) : iterDrain 0 n buf = buf := by
  induction n generalizing buf with
  | zero => rfl
  | succ n ih => simp [iterDrain, ih]

/-- C1: after a sequence of appends has filled the buffer with `buf` and a
frame delivers more normalised audio, one full pass of
`handle_audio_frame` with chunk size `c ≥ 1` feeds exactly `⌊L/c⌋` chunks
of exactly `c` bytes each to the detectors, in original byte-arrival
order, and leaves exactly `L mod c` bytes (hence fewer than `c`) in
`audio_buffer`, where `L` is the total number of bytes appended. -/
theorem chunking_pass_correct (cfg : Config) (hc : 1 ≤ cfg.chunk_size)
    (buf : Bytes) (wav : Wav) (siteId : String) :
    (handle_audio_frame cfg buf wav siteId).2.1.length
        = (buf ++ (maybe_convert_wav cfg wav).1).length / cfg.chunk_size ∧
    (∀ ch ∈ (handle_audio_frame cfg buf wav siteId).2.1, ch.length = cfg.chunk_size) ∧
    (handle_audio_frame cfg buf wav siteId).2.1.flatten
        ++ (handle_audio_frame cfg buf wav siteId).1
        = buf ++ (maybe_convert_wav cfg wav).1 ∧
    (handle_audio_frame cfg buf wav siteId).1.length
        = (buf ++ (maybe_convert_wav cfg wav).1).length % cfg.chunk_size ∧
    (handle_audio_frame cfg buf wav siteId).1.length < cfg.chunk_size := by
  obtain ⟨h1, h2, h3, h4⟩ :=
    drainChunks_spec cfg.chunk_size hc (buf ++ (maybe_convert_wav cfg wav).1)
  dsimp only [handle_audio_frame]
  refine ⟨h3, h2, h1, h4, ?_⟩
  rw [h4]
  exact Nat.mod_lt _ (by omega)

/-- Witness for C1 at a concrete input: buffer `[0]`, frame payload
`[1, 2, 3, 4]`, chunk size 2 — two chunks drained, one byte retained. -/
theorem chunking_pass_correct_witness :
    1 ≤ cfgW.chunk_size ∧
    ((handle_audio_frame cfgW [0] wavW "default").2.1.length
        = (([0] : Bytes) ++ (maybe_convert_wav cfgW wavW).1).length / cfgW.chunk_size ∧
     (∀ ch ∈ (handle_audio_frame cfgW [0] wavW "default").2.1, ch.length = cfgW.chunk_size) ∧
     (handle_audio_frame cfgW [0] wavW "default").2.1.flatten
        ++ (handle_audio_frame cfgW [0] wavW "default").1
        = ([0] : Bytes) ++ (maybe_convert_wav cfgW wavW).1 ∧
     (handle_audio_frame cfgW [0] wavW "default").1.length
        = (([0] : Bytes) ++ (maybe_convert_wav cfgW wavW).1).length % cfgW.chunk_size ∧
     (handle_audio_frame cfgW [0] wavW "default").1.length < cfgW.chunk_size) :=
  ⟨by decide, chunking_pass_correct cfgW (by decide) [0] wavW "default"⟩

/-- C10: the chunk-draining loop terminates for every finite buffer if
and only if `chunk_size ≥ 1`; when `chunk_size ≥ 1` every iteration whose
guard holds strictly shortens the buffer by `chunk_size` bytes, while for
`chunk_size = 0` the buffer never shrinks and the guard
`len(audio_buffer) >= chunk_size` holds after every number of
iterations. -/
theorem drain_loop_terminates_iff (c : Nat) (buf : Bytes) :
    ((∃ n, ¬ drainGuard c (iterDrain c n buf)) ↔ 1 ≤ c) ∧
    (1 ≤ c → ∀ b : Bytes, drainGuard c b →
      (b.drop c).length = b.length - c ∧ (b.drop c).length < b.length) ∧
    (c = 0 → ∀ n, iterDrain c n buf = buf ∧ drainGuard c (iterDrain c n buf)) := by
  refine ⟨⟨?_, ?_⟩, ?_, ?_⟩
  · rintro ⟨n, hn⟩
    by_contra hc
    have hc0 : c = 0 := by omega
    subst hc0
    exact hn (Nat.zero_le _)
  · intro hc
    refine ⟨buf.length, ?_⟩
    have h1 : (iterDrain c buf.length buf).length = buf.length - buf.length * c :=
      iterDrain_length c buf.length buf
    have h2 : buf.length ≤ buf.length * c := Nat.le_mul_of_pos_right _ (by omega)
    simp only [drainGuard, h1]
    omega
  · intro hc b hb
    simp only [drainGuard] at hb
    refine ⟨by simp, ?_⟩
    simp only [List.length_drop]
    omega
  · intro hc n
    subst hc
    refine ⟨iterDrain_zero_chunk n buf, ?_⟩
    exact Nat.zero_le _

/-- Witness for C10 at concrete inputs: with chunk size 0 five iterations
leave the buffer `[1, 2, 3]` untouched; with chunk size 2 an iteration on
a guarded buffer strictly shrinks it. -/
theorem drain_loop_terminates_iff_witness :
    iterDrain 0 5 [1, 2, 3] = [1, 2, 3] ∧ (([9, 9, 9] : Bytes).drop 2).length < ([9, 9, 9] : Bytes).length :=
  ⟨((drain_loop_terminates_iff 0 [1, 2, 3]).2.2 rfl 5).1,
   ((drain_loop_terminates_iff 2 [1, 2, 3]).2.1 (by decide) [9, 9, 9] (by decide)).2⟩

/-! ### Properties of the detector loop -/

theorem range_map_add_succ (n i : Nat) :
    i :: (List.range n).map (· + (i + 1)) = (List.range (n + 1)).map (· + i) := by
  rw [List.range_succ_eq_map]
  simp only [List.map_cons, List.map_map, Nat.zero_add]
  refine congrArg (i :: ·) (List.map_congr_left ?_)
  intro a _
  simp only [Function.comp_apply, Nat.succ_eq_add_one]
  omega

theorem detectFrom_eq (cfg : Config) (siteId : String) (chunk : Bytes) :
    ∀ (ds : List (Bytes → Int)) (i : Nat),
    detectFrom cfg siteId chunk i ds
      = match firstMatchIdx chunk ds with
        | some j => ((List.range (j + 1)).map (· + i),
                     [(resolve_wakeword_id cfg.wakeword_ids (j + i),
                       handle_detection cfg.models cfg.model_ids (j + i) siteId)])
        | none => ((List.range ds.length).map (· + i), []) := by
  intro ds
  induction ds with
  | nil =>
      intro i
      rfl
  | cons d rest ih =>
      intro i
      by_cases hd : d chunk > 0
      · simp only [detectFrom, if_pos hd, firstMatchIdx]
        simp [List.range_succ]
      · simp only [detectFrom, if_neg hd, firstMatchIdx, ih (i + 1)]
        cases hfm : firstMatchIdx chunk rest with
        | none =>
            simp only [Option.map_none, List.length_cons]
            exact Prod.ext (range_map_add_succ rest.length i) rfl
        | some j =>
            simp only [Option.map_some]
            have hidx : j + (i + 1) = (j + 1) + i := by omega
            refine Prod.ext ?_ ?_
            · simpa using range_map_add_succ (j + 1) i
            · simp [hidx]

/-- C3 counterexample: with two always-matching detectors configured, the
pass over a chunk invokes only detector 0 — detector 1 is never polled,
refuting that every configured detector is invoked for every chunk. -/
theorem every_detector_polled_cex :
    cfg3.detectors.length = 2 ∧ (detectChunk cfg3 [0, 0] "default").1 = [0] := by
  exact ⟨rfl, rfl⟩

/-- C3 (amended): for every chunk the detectors are invoked in configured
order, each exactly once, up to and including the first whose result is
positive; detectors after the first match are not invoked for that chunk;
when no detector matches, every configured detector is invoked exactly
once. -/
theorem detectors_polled_until_first_match (cfg : Config) (chunk : Bytes) (siteId : String) :
    (detectChunk cfg chunk siteId).1
      = match firstMatchIdx chunk cfg.detectors with
        | some j => List.range (j + 1)
        | none => List.range cfg.detectors.length := by
  have h := detectFrom_eq cfg siteId chunk cfg.detectors 0
  simp only [detectChunk, h]
  cases firstMatchIdx chunk cfg.detectors with
  | none => simp
  | some j => simp

/-- C2: concrete evaluation exposing the `model_ids` slip inside the
first-match-wins pass — with detectors `[no match, match]` over the two
loaded models, both detectors are polled, the matching detector at index
1 yields exactly one event and stops the loop, but that event is a
`HotwordError` (`"Missing 1 in models"`), not a `HotwordDetected`,
because `load_detectors` overwrote `model_ids` with the last model's stem
string `"b"` instead of appending each stem. -/
theorem first_match_wins_error_event :
    (detectChunk cfgC2 [0, 0] "default").1 = [0, 1] ∧
    (detectChunk cfgC2 [0, 0] "default").2
      = [("second",
          Sum.inr { error := "Missing 1 in models", context := "1", siteId := "default" })] := by
  exact ⟨by decide, by decide⟩

/-- C8 counterexample: with model list `[m1]` and an empty wakeword-id
list, a match by the detector at index 0 resolves its wakewordId to
`"default"` — the missing-id fallback — and not to the wake word
(`"hey"`) the spec scenario pairs with the model. -/
theorem empty_wakeword_ids_cex :
    ((detectChunk cfg8 [0, 0] "default").2.map Prod.fst) = ["default"] ∧
    ((detectChunk cfg8 [0, 0] "default").2.map Prod.fst) ≠ ["hey"] := by
  exact ⟨by decide, by decide⟩

/-- C8 (amended): wakewordId resolution is purely positional against the
configured wakeword-id list — the first-matching detector index `j`
resolves to entry `j` of the list exactly when `j` is within its length,
and to `"default"` otherwise; in particular with an empty list every
matching detector, index 0 included, resolves to `"default"`. -/
theorem wakeword_resolution_positional (cfg : Config) (chunk : Bytes) (siteId : String)
    (j : Nat) (hj : firstMatchIdx chunk cfg.detectors = some j) :
    (detectChunk cfg chunk siteId).2
      = [((if h : j < cfg.wakeword_ids.length then cfg.wakeword_ids[j] else "default"),
          handle_detection cfg.models cfg.model_ids j siteId)] := by
  have h := detectFrom_eq cfg siteId chunk cfg.detectors 0
  simp only [detectChunk, h, hj, Nat.add_zero]
  by_cases hlt : j < cfg.wakeword_ids.length
  · simp only [resolve_wakeword_id, if_pos hlt, dif_pos hlt,
      List.getD_eq_getElem cfg.wakeword_ids "default" hlt]
  · simp only [resolve_wakeword_id, if_neg hlt, dif_neg hlt]

/-- Witness for C8 (amended) at a concrete input: `cfg8` has an empty
wakeword-id list and its only detector matches, so the resolved id is the
fallback `"default"`. -/
theorem wakeword_resolution_positional_witness :
    firstMatchIdx [0, 0] cfg8.detectors = some 0 ∧
    (detectChunk cfg8 [0, 0] "default").2
      = [((if h : 0 < cfg8.wakeword_ids.length then cfg8.wakeword_ids[0] else "default"),
          handle_detection cfg8.models cfg8.model_ids 0 "default")] :=
  ⟨by decide, wakeword_resolution_positional cfg8 [0, 0] "default" 0 (by decide)⟩

/-! ### Detection metadata and event fields -/

/-- C4: concrete evaluation of the Detected event built by
`handle_detection` for the single model `okay.pmdl` (stem `"okay"`): the
event carries `modelId = "o"` — one character of the stem, because
`load_detectors` assigned the stem string to `model_ids` instead of
appending it to the list — while `currentSensitivity`, `modelVersion` and
`modelType` carry the claimed values. -/
theorem detected_event_fields_eval :
    handle_detection models1 (load_model_ids models1) 0 "default"
      = Sum.inl { siteId := "default", modelId := "o", currentSensitivity := "0.5",
                  modelVersion := "", modelType := "personal" } ∧
    pathStem "okay.pmdl" = "okay" ∧ ("o" : String) ≠ "okay" := by
  exact ⟨by decide, by decide, by decide⟩

/-- C7: a metadata-resolution failure inside `handle_detection` never
propagates: whenever the `model_ids` bounds check or the model-list
lookup fails for detector index `i`, the call returns a `HotwordError`
whose `error` field is the failure description and whose `context` field
is the string form of `i`; and the chunk pass is not aborted — the chunks
fed by `handle_audio_frame` are exactly the drained chunks, regardless of
the detection results. -/
theorem detection_metadata_error_handled (models : List SnowboyModel) (mids : ModelIds)
    (i : Nat) (siteId : String) (cfg : Config) (buf : Bytes) (wav : Wav)
    (h : mids.len ≤ i ∨ models.length ≤ i) :
    handle_detection models mids i siteId
      = Sum.inr { error := if i < mids.len then "list index out of range"
                           else "Missing " ++ toString i ++ " in models",
                  context := toString i, siteId := siteId } ∧
    (handle_audio_frame cfg buf wav siteId).2.1
      = (drainChunks cfg.chunk_size (buf ++ (maybe_convert_wav cfg wav).1)).1 := by
  refine ⟨?_, rfl⟩
  unfold handle_detection
  by_cases hm : mids.len > i
  · rw [if_pos hm]
    have hmod : models.length ≤ i := by omega
    rw [List.get?_eq_none.mpr hmod]
    simp [hm]
  · rw [if_neg hm]
    have hlt : ¬ i < mids.len := by omega
    simp [hlt]

/-- Witness for C7 at a concrete input: two loaded models but `model_ids`
holding only the last stem string `"b"`, so index 1 fails the bounds
check and is converted to a `HotwordError` with context `"1"`. -/
theorem detection_metadata_error_handled_witness :
    ((load_model_ids models2).len ≤ 1 ∨ models2.length ≤ 1) ∧
    handle_detection models2 (load_model_ids models2) 1 "default"
      = Sum.inr { error := if 1 < (load_model_ids models2).len then "list index out of range"
                           else "Missing " ++ toString 1 ++ " in models",
                  context := toString 1, siteId := "default" } :=
  ⟨by decide,
   (detection_metadata_error_handled models2 (load_model_ids models2) 1 "default"
      cfgW [] wavW (by decide)).1⟩

/-! ### Audio normalisation -/

/-- C9: when the WAV header already matches the required
`(sample_rate, sample_width, channels)` format, `maybe_convert_wav`
returns exactly the raw sample payload, byte for byte, without invoking
the external converter; hence re-wrapping the normalised output in a WAV
header at the matching format and feeding it back through the normaliser
returns byte-identical output. -/
theorem maybe_convert_wav_matching (cfg : Config) (w : Wav)
    (h : w.framerate = cfg.sample_rate ∧ w.sampwidth = cfg.sample_width ∧
         w.nchannels = cfg.channels) :
    maybe_convert_wav cfg w = (w.frames, false) ∧
    maybe_convert_wav cfg
        { framerate := cfg.sample_rate, sampwidth := cfg.sample_width,
          nchannels := cfg.channels, frames := (maybe_convert_wav cfg w).1 }
      = ((maybe_convert_wav cfg w).1, false) := by
  obtain ⟨h1, h2, h3⟩ := h
  have hmain : maybe_convert_wav cfg w = (w.frames, false) := by
    unfold maybe_convert_wav
    rw [if_neg]
    push_neg
    exact ⟨h1, h2, h3⟩
  refine ⟨hmain, ?_⟩
  unfold maybe_convert_wav
  rw [if_neg]
  push_neg
  exact ⟨rfl, rfl, rfl⟩

/-- Witness for C9 at a concrete input: `wavW` is already in `cfgW`'s
required format, so its payload `[1, 2, 3, 4]` is returned unchanged with
no converter invocation. -/
theorem maybe_convert_wav_matching_witness :
    (wavW.framerate = cfgW.sample_rate ∧ wavW.sampwidth = cfgW.sample_width ∧
     wavW.nchannels = cfgW.channels) ∧
    maybe_convert_wav cfgW wavW = (wavW.frames, false) :=
  ⟨by decide, (maybe_convert_wav_matching cfgW wavW (by decide)).1⟩

/-! ### Dispatcher: enable/disable gating and buffering -/

/-- C5 counterexample: with scope `{"kitchen", "office"}` configured,
after a toggle-off for `"kitchen"` an audio frame tagged `"office"` is
dropped — nothing is buffered, no chunk is fed to a detector, no event is
produced — although the same frame alone (no preceding toggle-off) is
buffered, chunked and detected.  Disabling `"kitchen"` disables
`"office"` too. -/
theorem per_site_toggle_cex :
    run_messages cfg5 {} [InMsg.toggleOff "kitchen", InMsg.audioFrame "office" wav1]
      = ({ enabled := false, first_audio := true, audio_buffer := [] }, [], []) ∧
    (run_messages cfg5 {} [InMsg.audioFrame "office" wav1]).2.1 = [[7]] := by
  exact ⟨by decide, by decide⟩

/-- C5 (amended): the enable/disable flag is global, not per-site — after
a toggle-off whose siteId passes the configured scope filter, subsequent
audio frames from every site (the toggled site and all others alike) are
dropped without normalisation, buffering or detection, until a
toggle-on. -/
theorem toggle_off_disables_globally (cfg : Config) (st : MqttState) (s : String)
    (hs : check_siteId cfg s = true) :
    (on_message cfg st (InMsg.toggleOff s)).1.enabled = false ∧
    ∀ (s2 : String) (w : Wav),
      on_message cfg (on_message cfg st (InMsg.toggleOff s)).1 (InMsg.audioFrame s2 w)
        = ((on_message cfg st (InMsg.toggleOff s)).1, [], []) := by
  have hoff : on_message cfg st (InMsg.toggleOff s)
      = ({ st with enabled := false }, [], []) := by
    simp [on_message, hs]
  refine ⟨by rw [hoff], ?_⟩
  intro s2 w
  rw [hoff]
  simp [on_message]

/-- Witness for C5 (amended) at concrete inputs: toggling off
`"kitchen"` under scope `{"kitchen", "office"}` leaves the pipeline
disabled and a subsequent `"office"` frame is dropped unchanged. -/
theorem toggle_off_disables_globally_witness :
    check_siteId cfg5 "kitchen" = true ∧
    (on_message cfg5 {} (InMsg.toggleOff "kitchen")).1.enabled = false ∧
    on_message cfg5 (on_message cfg5 {} (InMsg.toggleOff "kitchen")).1
        (InMsg.audioFrame "office" wav1)
      = ((on_message cfg5 {} (InMsg.toggleOff "kitchen")).1, [], []) :=
  ⟨by decide, (toggle_off_disables_globally cfg5 {} "kitchen" (by decide)).1,
   (toggle_off_disables_globally cfg5 {} "kitchen" (by decide)).2 "office" wav1⟩

theorem on_message_buffer_conservation (cfg : Config) (hc : 1 ≤ cfg.chunk_size)
    (st : MqttState) (msg : InMsg) :
    (on_message cfg st msg).2.1.flatten ++ (on_message cfg st msg).1.audio_buffer
      = st.audio_buffer ++ acceptedOf cfg st msg := by
  cases msg with
  | toggleOn s =>
      simp only [on_message, acceptedOf]
      split_ifs <;> simp
  | toggleOff s =>
      simp only [on_message, acceptedOf]
      split_ifs <;> simp
  | audioFrame s w =>
      by_cases he : st.enabled
      · by_cases ht : audioframe_topic_ok cfg s
        · have hd := (drainChunks_spec cfg.chunk_size hc
            (st.audio_buffer ++ (maybe_convert_wav cfg w).1)).1
          simp only [on_message, acceptedOf, he, ht]
          simpa [handle_audio_frame] using hd
        · simp [on_message, acceptedOf, he, ht]
      · simp [on_message, acceptedOf, he]

theorem run_messages_conservation (cfg : Config) (hc : 1 ≤ cfg.chunk_size) :
    ∀ (msgs : List InMsg) (st : MqttState),
    (run_messages cfg st msgs).2.1.flatten ++ (run_messages cfg st msgs).1.audio_buffer
      = st.audio_buffer ++ acceptedAudio cfg st msgs := by
  intro msgs
  induction msgs with
  | nil =>
      intro st
      simp [run_messages, acceptedAudio]
  | cons m ms ih =>
      intro st
      simp only [run_messages, acceptedAudio, List.flatten_append, List.append_assoc]
      rw [ih (on_message cfg st m).1, ← List.append_assoc,
        on_message_buffer_conservation cfg hc st m, List.append_assoc]

/-- C6: audio arriving while the pipeline is disabled is never buffered
and never reaches a detector — a disabled-state audio frame leaves the
state (buffer included) unchanged and feeds no chunk; toggle messages
never touch `audio_buffer`, so bytes buffered before a disable survive a
disable/re-enable; and over any message sequence the concatenation of all
chunks fed to detectors followed by the final buffer equals the initial
buffer followed by exactly the audio accepted while enabled — so bytes of
disabled-window frames never appear in any detector call, while
previously buffered bytes are still drained. -/
theorem disabled_audio_never_buffered (cfg : Config) (hc : 1 ≤ cfg.chunk_size)
    (st : MqttState) (s : String) (w : Wav) (msgs : List InMsg) :
    (st.enabled = false → on_message cfg st (InMsg.audioFrame s w) = (st, [], [])) ∧
    (on_message cfg st (InMsg.toggleOff s)).1.audio_buffer = st.audio_buffer ∧
    (on_message cfg st (InMsg.toggleOn s)).1.audio_buffer = st.audio_buffer ∧
    (run_messages cfg st msgs).2.1.flatten ++ (run_messages cfg st msgs).1.audio_buffer
      = st.audio_buffer ++ acceptedAudio cfg st msgs := by
  refine ⟨?_, ?_, ?_, run_messages_conservation cfg hc msgs st⟩
  · intro he
    simp [on_message, he]
  · simp only [on_message]
    split_ifs <;> rfl
  · simp only [on_message]
    split_ifs <;> rfl

/-- Witness for C6 at concrete inputs: a frame arriving in the disabled
state `stDis` changes nothing, and over the mixed sequence `msgsW` the
fed chunks plus the final buffer are exactly the initial buffer plus the
audio accepted while enabled. -/
theorem disabled_audio_never_buffered_witness :
    1 ≤ cfg5.chunk_size ∧
    on_message cfg5 stDis (InMsg.audioFrame "kitchen" wav1) = (stDis, [], []) ∧
    (run_messages cfg5 stDis msgsW).2.1.flatten
        ++ (run_messages cfg5 stDis msgsW).1.audio_buffer
      = stDis.audio_buffer ++ acceptedAudio cfg5 stDis msgsW :=
  ⟨by decide,
   (disabled_audio_never_buffered cfg5 (by decide) stDis "kitchen" wav1 msgsW).1 rfl,
   (disabled_audio_never_buffered cfg5 (by decide) stDis "kitchen" wav1 msgsW).2.2.2⟩

end RhasspyWakeSnowboy
